import Mathlib

/-!
Verification of the Equalizer control-plane core: the thread-safe blocking
queue `eq::base::MTQueue` (src/lib/base/mtQueue.h) and the abstract network
controller `eqNet::priv::Network` (src/net/networkPriv.h).

The queue is embedded as a `List T` whose head is the front of the
underlying `std::deque`.  Each member function of `MTQueue` becomes a pure
Lean function on that list; blocking is modelled by partiality
(`Option`-valued results, `none` standing for a suspended caller, never for
a returned value).  Lock acquisition in the copy operations is recorded as
an explicit trace, since the property at stake is which mutexes are held.

The network controller header declares `addNode`, `start`, `startNode` and
`handlePacket` but their bodies are not part of the shown sources (`start`
and `startNode` are pure virtual), so those operations are modelled from
the specification, as marked on each definition.
-/

namespace MTQueue

/-- The sentinel: `template< typename T > const T MTQueue<T>::NONE = 0`
(mtQueue.h line 144).  It is the fixed zero value of `T`. -/
def NONE (T : Type) [Zero T] : T := 0

/-- `push(const T&)` (mtQueue.h lines 294-301): `_queue.push_back(element)`. -/
def push {T : Type} (q : List T) (x : T) : List T := q ++ [x]

/-- `push(const std::vector<T>&)` (mtQueue.h lines 303-310):
`_queue.insert(_queue.end(), elements.begin(), elements.end())`. -/
def pushVec {T : Type} (q : List T) (elements : List T) : List T := q ++ elements

/-- `pushFront(const T&)` (mtQueue.h lines 312-319): `_queue.push_front(element)`. -/
def pushFront {T : Type} (q : List T) (x : T) : List T := x :: q

/-- `pop()` (mtQueue.h lines 202-214): waits while the queue is empty, then
removes and returns `_queue.front()`.  `none` models the suspended wait on
the condition variable, never a returned value. -/
def popStep {T : Type} (q : List T) : Option (T × List T) :=
  match q with
  | [] => none
  | x :: xs => some (x, xs)

/-- `pop(const uint32_t timeout)` (mtQueue.h lines 216-243): after the timed
wait, returns `NONE` leaving the queue untouched when it is still empty,
otherwise removes and returns the front element. -/
def popTimeout {T : Type} [Zero T] (q : List T) : T × List T :=
  match q with
  | [] => (NONE T, [])
  | x :: xs => (x, xs)

/-- `tryPop()` (mtQueue.h lines 245-262): if the queue is empty (checked
before and after taking the lock; sequentially the two checks coincide)
returns `NONE` with the queue untouched, else removes and returns the front. -/
def tryPop {T : Type} [Zero T] (q : List T) : T × List T :=
  match q with
  | [] => (NONE T, [])
  | x :: xs => (x, xs)

/-- `front()` (mtQueue.h lines 264-277): `NONE` if empty, else `_queue.front()`,
not removing. -/
def front {T : Type} [Zero T] (q : List T) : T :=
  match q with
  | [] => NONE T
  | x :: _ => x

/-- `back()` (mtQueue.h lines 279-292): `NONE` if empty, else `_queue.back()`,
not removing. -/
def back {T : Type} [Zero T] (q : List T) : T :=
  match q with
  | [] => NONE T
  | x :: xs => List.getLast (x :: xs) (List.cons_ne_nil x xs)

/-- The two queue instances involved in a copy: destination (`this`) and
source (`from`). -/
inductive QueueSide where
  | dest
  | src
deriving DecidableEq

/-- Mutexes acquired by `operator=` (mtQueue.h lines 182-190): it locks only
`_data->mutex` of the destination (`this`) while reading `from._queue`. -/
def assignLocksHeld : List QueueSide := [QueueSide.dest]

/-- Mutexes acquired by the copy constructor (mtQueue.h lines 153-159): it
copies `from._queue` in the initializer list before `_init()`, holding no
mutex at all. -/
def copyCtorLocksHeld : List QueueSide := []

end MTQueue

namespace eqNet

/-- `enum NetworkProtocol`: the three transports the controller can be
created with (PROTO_TCPIP, PROTO_PIPE, PROTO_MPI, printed in
networkPriv.h lines 199-201). -/
inductive NetworkProtocol where
  | tcpip
  | pipe
  | mpi
deriving DecidableEq

/-- Modelled from the spec: the class `ConnectionDescription` itself is not
under src (only networkPriv.h references it); per spec section 3 it is an
immutable value of transport kind plus address and launch parameters,
here carried as opaque numeric tokens so that descriptions compare for
equality. -/
structure ConnectionDescription where
  protocol : NetworkProtocol
  address : Nat
  launchCommand : Nat
deriving DecidableEq

/-- `enum NodeState` (networkPriv.h lines 41-47). -/
inductive NodeState where
  | stopped
  | initialized
  | launched
  | running
deriving DecidableEq

/-- `enum State` of the network (networkPriv.h lines 33-38). -/
inductive NetState where
  | stopped
  | starting
  | running
deriving DecidableEq

/-- The controller's membership and liveness view:
`_descriptions : PtrHash<Node*, ConnectionDescription*>` and
`_nodeStates : PtrHash<Node*, NodeState>` (networkPriv.h lines 164-168)
as association lists keyed by the node identity (modelled as `Nat`), plus
`_state` (line 159). -/
structure Network where
  descriptions : List (Nat × ConnectionDescription)
  nodeStates : List (Nat × NodeState)
  state : NetState
deriving DecidableEq

/-- Modelled from the spec: the body of `Network::addNode` is not in src
(networkPriv.h lines 59-67 declare it only).  Per spec section 4.1 the
registration is idempotent when the node already carries an identical
description, is rejected (original mapping retained) when the description
conflicts, and otherwise creates the description and state entries
together, the node starting `STOPPED`.  Returns the success flag and the
resulting controller. -/
def addNode (net : Network) (node : Nat) (desc : ConnectionDescription) :
    Bool × Network :=
  match net.descriptions.lookup node with
  | some d => if d = desc then (true, net) else (false, net)
  | none =>
      (true,
        { net with
          descriptions := net.descriptions ++ [(node, desc)],
          nodeStates := net.nodeStates ++ [(node, NodeState.stopped)] })

/-- Modelled from the spec: `Network::startNode` is pure virtual
(networkPriv.h lines 105-113), its transport-specific outcome is an
oracle `ok : Nat → Bool`.  This helper walks the node-state entries in
order: a node already `RUNNING` is skipped; otherwise `startNode` is
invoked, and per spec section 4.1 a failure makes the whole call fail,
stopping again every node started as part of this call (the rollback
visible in the branch that rewrites a successfully started node back to
`STOPPED` when a later node fails) and leaving the not-yet-attempted
nodes untouched. -/
def runStart (ok : Nat → Bool) : List (Nat × NodeState) → Bool × List (Nat × NodeState)
  | [] => (true, [])
  | (n, s) :: rest =>
      if s = NodeState.running then
        ((runStart ok rest).1, (n, s) :: (runStart ok rest).2)
      else if ok n then
        if (runStart ok rest).1 then
          (true, (n, NodeState.running) :: (runStart ok rest).2)
        else
          (false, (n, NodeState.stopped) :: (runStart ok rest).2)
      else
        (false, (n, s) :: rest)

/-- Modelled from the spec: `Network::start` is pure virtual
(networkPriv.h lines 88-96).  Per spec section 4.1 it transitions through
`STARTING`, invokes `startNode` for every registered node not already
running, and is all-or-nothing: on full success the controller is
`RUNNING`, on any failure it returns `false` and falls back to `STOPPED`
with the rollback performed by `runStart`. -/
def start (ok : Nat → Bool) (net : Network) : Bool × Network :=
  if (runStart ok net.nodeStates).1 then
    (true, { net with state := NetState.running,
                      nodeStates := (runStart ok net.nodeStates).2 })
  else
    (false, { net with state := NetState.stopped,
                       nodeStates := (runStart ok net.nodeStates).2 })

/-- A command packet: `struct NetworkPacket` carries the command identifier
(the payload is opaque to the dispatch contract). -/
structure NetworkPacket where
  command : Nat

/-- Outcome of `handlePacket`: the bound handler ran, or the packet was
dropped with a reported protocol error (the controller keeps operating in
both cases). -/
inductive DispatchResult where
  | handled (net : Network)
  | protocolError

/-- Modelled from the spec: the body of `Network::handlePacket`
(networkPriv.h lines 142-147) is not in src; the table it consults is
`_cmdHandler`, an array with exactly `CMD_NETWORK_ALL` entries
(networkPriv.h line 186), here a total function on `Fin cmdAll` so an
out-of-range identifier cannot index it.  Per spec section 4.2 a command
outside `[0, CMD_NETWORK_ALL)` or without a registered handler is a
protocol error: reported, packet dropped, controller keeps running. -/
def handlePacket (cmdAll : Nat)
    (table : Fin cmdAll → Option (Network → NetworkPacket → Network))
    (net : Network) (p : NetworkPacket) : DispatchResult :=
  if h : p.command < cmdAll then
    match table ⟨p.command, h⟩ with
    | some handler => DispatchResult.handled (handler net p)
    | none => DispatchResult.protocolError
  else
    DispatchResult.protocolError

end eqNet

/-! Helper lemmas about `runStart`, shared by the rollback theorem and its
witness. -/

/-- If some registered, not-running node fails to start, the whole start
pass fails. -/
theorem runStart_fails (ok : Nat → Bool) :
    ∀ l : List (Nat × eqNet.NodeState),
      (∀ p ∈ l, p.2 ≠ eqNet.NodeState.running) →
      (∃ p ∈ l, ok p.1 = false) →
      (eqNet.runStart ok l).1 = false := by
  intro l
  induction l with
  | nil =>
      intro _ h2
      rcases h2 with ⟨p, hp, _⟩
      exact absurd hp (List.not_mem_nil p)
  | cons hd tl ih =>
      intro h1 h2
      obtain ⟨n, s⟩ := hd
      have hs : s ≠ eqNet.NodeState.running := h1 (n, s) (List.mem_cons_self _ _)
      rcases h2 with ⟨p, hp, hpok⟩
      simp only [eqNet.runStart, if_neg hs]
      by_cases hok : ok n
      · have hptl : p ∈ tl := by
          rcases List.mem_cons.1 hp with heq | htl
          · exfalso
            rw [heq] at hpok
            simp [hpok] at hok
          · exact htl
        have htlfail : (eqNet.runStart ok tl).1 = false :=
          ih (fun q hq => h1 q (List.mem_cons_of_mem _ hq)) ⟨p, hptl, hpok⟩
        simp [hok, htlfail]
      · simp [hok]

/-- A failed start pass leaves no node running, provided none was running
when the pass began. -/
theorem runStart_no_running (ok : Nat → Bool) :
    ∀ l : List (Nat × eqNet.NodeState),
      (∀ p ∈ l, p.2 ≠ eqNet.NodeState.running) →
      (eqNet.runStart ok l).1 = false →
      ∀ p ∈ (eqNet.runStart ok l).2, p.2 ≠ eqNet.NodeState.running := by
  intro l
  induction l with
  | nil =>
      intro _ _ p hp
      simp [eqNet.runStart] at hp
  | cons hd tl ih =>
      intro h1 hfail p hp
      obtain ⟨n, s⟩ := hd
      have hs : s ≠ eqNet.NodeState.running := h1 (n, s) (List.mem_cons_self _ _)
      have h1tl : ∀ q ∈ tl, q.2 ≠ eqNet.NodeState.running :=
        fun q hq => h1 q (List.mem_cons_of_mem _ hq)
      simp only [eqNet.runStart, if_neg hs] at hfail hp
      by_cases hok : ok n
      · by_cases htl : (eqNet.runStart ok tl).1
        · simp [hok, htl] at hfail
        · have htlf : (eqNet.runStart ok tl).1 = false := by
            simpa using htl
          simp only [hok, if_true, htlf, Bool.false_eq_true, if_false] at hp
          rcases List.mem_cons.1 hp with heq | hmem
          · rw [heq]
            intro hcon
            exact absurd hcon (by simp [eqNet.NodeState.stopped])
          · exact ih h1tl htlf p hmem
      · simp only [hok, Bool.false_eq_true, if_false] at hp
        rcases List.mem_cons.1 hp with heq | hmem
        · rw [heq]
          exact hs
        · exact h1tl p hmem

/-! The claim theorems. -/

/-- C1: pop order is FIFO for pushed entries with pushFront priority: a
pushFront-ed element is popped before everything that was in the queue, a
second pushFront lands nearer the front than the first, a push never
displaces the current front and keeps the rest in order; in particular the
queue built by push 1, push 2, push 3, pushFront 9 pops 9, 1, 2. -/
theorem mtqueue_fifo_pushFront_order :
    (∀ (T : Type) (q : List T) (a : T),
        MTQueue.popStep (MTQueue.pushFront q a) = some (a, q)) ∧
    (∀ (T : Type) (q : List T) (a b : T),
        MTQueue.pushFront (MTQueue.pushFront q a) b = b :: a :: q) ∧
    (∀ (T : Type) (a x : T) (rest : List T),
        MTQueue.popStep (MTQueue.push (a :: rest) x) =
          some (a, MTQueue.push rest x)) ∧
    (MTQueue.popStep
        (MTQueue.pushFront
          (MTQueue.push (MTQueue.push (MTQueue.push ([] : List Int) 1) 2) 3) 9) =
        some (9, [1, 2, 3]) ∧
      MTQueue.popStep [(1 : Int), 2, 3] = some (1, [2, 3]) ∧
      MTQueue.popStep [(2 : Int), 3] = some (2, [3])) := by
  refine ⟨fun T q a => rfl, fun T q a b => rfl, fun T a x rest => rfl, ?_, ?_, ?_⟩
  · rfl
  · rfl
  · rfl

/-- C5: on a non-empty queue, pop removes and returns the front element and
the remaining elements keep their relative order; on an empty queue pop
suspends (modelled by `none`) rather than returning a missing indicator. -/
theorem mtqueue_pop_front_removal :
    (∀ (T : Type) (x : T) (xs : List T),
        MTQueue.popStep (x :: xs) = some (x, xs)) ∧
    (∀ (T : Type), MTQueue.popStep ([] : List T) = none) := by
  exact ⟨fun T x xs => rfl, fun T => rfl⟩

/-- C6: pop with a timeout returns and removes the front element when one is
available, and returns the NONE sentinel with the queue left unchanged when
none became available before the deadline. -/
theorem mtqueue_pop_timeout_none (T : Type) [Zero T] (x : T) (xs : List T) :
    MTQueue.popTimeout (x :: xs) = (x, xs) ∧
    MTQueue.popTimeout ([] : List T) = (MTQueue.NONE T, []) := by
  exact ⟨rfl, rfl⟩

/-- C6 witness at a concrete integer queue. -/
theorem mtqueue_pop_timeout_none_witness :
    MTQueue.popTimeout [(7 : Int), 8] = (7, [8]) ∧
    MTQueue.popTimeout ([] : List Int) = (MTQueue.NONE Int, []) :=
  mtqueue_pop_timeout_none Int 7 [8]

/-- C7: tryPop never suspends: it is a total function that removes and
returns the front element of a non-empty queue, and on an empty queue
returns the NONE sentinel leaving the queue unchanged. -/
theorem mtqueue_tryPop_nonblocking (T : Type) [Zero T] (x : T) (xs : List T) :
    MTQueue.tryPop (x :: xs) = (x, xs) ∧
    MTQueue.tryPop ([] : List T) = (MTQueue.NONE T, []) := by
  exact ⟨rfl, rfl⟩

/-- C7 witness at a concrete integer queue. -/
theorem mtqueue_tryPop_nonblocking_witness :
    MTQueue.tryPop [(4 : Int), 6] = (4, [6]) ∧
    MTQueue.tryPop ([] : List Int) = (MTQueue.NONE Int, []) :=
  mtqueue_tryPop_nonblocking Int 4 [6]

/-- C8: the vector push appends all elements preserving their order, so the
resulting queue equals the one obtained by pushing each element
individually in order. -/
theorem mtqueue_push_vector (T : Type) (q v : List T) :
    MTQueue.pushVec q v = List.foldl MTQueue.push q v := by
  induction v generalizing q with
  | nil => simp [MTQueue.pushVec]
  | cons x v ih =>
      show q ++ x :: v = List.foldl MTQueue.push (MTQueue.push q x) v
      rw [← ih (MTQueue.push q x)]
      simp [MTQueue.pushVec, MTQueue.push]

/-- C9: the lock trace of the source code's copy operations: `operator=`
holds only the destination's mutex and the copy constructor holds none, so
the source queue's lock is never held while its contents are read — the
protection the claim requires is absent from the code. -/
theorem mtqueue_copy_missing_source_lock :
    MTQueue.QueueSide.src ∉ MTQueue.assignLocksHeld ∧
    MTQueue.QueueSide.src ∉ MTQueue.copyCtorLocksHeld ∧
    MTQueue.QueueSide.dest ∈ MTQueue.assignLocksHeld ∧
    MTQueue.copyCtorLocksHeld = [] := by
  refine ⟨by decide, by decide, by decide, rfl⟩

/-- C10 counterexample: on the integer queue [0, 5] the front element is the
zero value, front() returns NONE, yet back() returns 5, which differs from
NONE — so back() does not return NONE on every queue whose front is zero,
and the queue is distinguishable from an empty one through back(). -/
theorem mtqueue_none_back_counterexample :
    List.head? [(0 : Int), 5] = some 0 ∧
    MTQueue.front [(0 : Int), 5] = MTQueue.NONE Int ∧
    ¬ MTQueue.back [(0 : Int), 5] = MTQueue.NONE Int := by
  refine ⟨rfl, rfl, by decide⟩

/-- C10 amended: NONE is the fixed zero value of the element type, and for
every queue whose front element equals zero, tryPop() and front() return a
value equal to NONE — exactly what they return on an empty queue, so their
return values cannot distinguish such a queue from an empty one (back()
gives no such guarantee: it returns the last element, which equals NONE
only when that element is itself zero). -/
theorem mtqueue_none_zero_front (T : Type) [Zero T] (q xs : List T)
    (h : q = 0 :: xs) :
    MTQueue.NONE T = (0 : T) ∧
    (MTQueue.tryPop q).1 = MTQueue.NONE T ∧
    MTQueue.front q = MTQueue.NONE T ∧
    (MTQueue.tryPop ([] : List T)).1 = MTQueue.NONE T ∧
    MTQueue.front ([] : List T) = MTQueue.NONE T := by
  subst h
  exact ⟨rfl, rfl, rfl, rfl, rfl⟩

/-- C10 amended witness at the concrete integer queue [0, 5]. -/
theorem mtqueue_none_zero_front_witness :
    MTQueue.NONE Int = (0 : Int) ∧
    (MTQueue.tryPop [(0 : Int), 5]).1 = MTQueue.NONE Int ∧
    MTQueue.front [(0 : Int), 5] = MTQueue.NONE Int ∧
    (MTQueue.tryPop ([] : List Int)).1 = MTQueue.NONE Int ∧
    MTQueue.front ([] : List Int) = MTQueue.NONE Int :=
  mtqueue_none_zero_front Int [(0 : Int), 5] [5] rfl

/-- C2: if start is invoked on a controller none of whose registered nodes
is running yet (the pre-start situation) and startNode fails for at least
one node, then start returns failure, the controller does not end in the
RUNNING state (it falls back to STOPPED), and no registered node is left in
NodeState RUNNING: nodes started during this call were stopped again. -/
theorem network_start_rollback (ok : Nat → Bool) (net : eqNet.Network)
    (h1 : ∀ p ∈ net.nodeStates, p.2 ≠ eqNet.NodeState.running)
    (h2 : ∃ p ∈ net.nodeStates, ok p.1 = false) :
    (eqNet.start ok net).1 = false ∧
    (eqNet.start ok net).2.state ≠ eqNet.NetState.running ∧
    ∀ p ∈ (eqNet.start ok net).2.nodeStates, p.2 ≠ eqNet.NodeState.running := by
  have hfail : (eqNet.runStart ok net.nodeStates).1 = false :=
    runStart_fails ok net.nodeStates h1 h2
  refine ⟨?_, ?_, ?_⟩
  · simp [eqNet.start, hfail]
  · simp only [eqNet.start, hfail, Bool.false_eq_true, if_false]
    intro hcon
    simp at hcon
  · simp only [eqNet.start, hfail, Bool.false_eq_true, if_false]
    exact runStart_no_running ok net.nodeStates h1 hfail

/-- A two-node controller where node 2 fails to start, for the rollback
witness. -/
def net2 : eqNet.Network :=
  { descriptions :=
      [(1, ⟨eqNet.NetworkProtocol.tcpip, 10, 20⟩),
       (2, ⟨eqNet.NetworkProtocol.tcpip, 11, 21⟩)],
    nodeStates := [(1, eqNet.NodeState.stopped), (2, eqNet.NodeState.stopped)],
    state := eqNet.NetState.stopped }

/-- startNode oracle succeeding only for node 1. -/
def ok2 : Nat → Bool := fun n => decide (n = 1)

/-- C2 witness: on the concrete two-node controller with node 2 failing,
start fails, ends not RUNNING, and leaves no node RUNNING. -/
theorem network_start_rollback_witness :
    (eqNet.start ok2 net2).1 = false ∧
    (eqNet.start ok2 net2).2.state ≠ eqNet.NetState.running ∧
    ∀ p ∈ (eqNet.start ok2 net2).2.nodeStates, p.2 ≠ eqNet.NodeState.running :=
  network_start_rollback ok2 net2 (by decide)
    ⟨(2, eqNet.NodeState.stopped), by decide, by decide⟩

/-- C3: when a node is already registered, addNode with the identical
description succeeds as a no-op and addNode with a different description is
rejected — in both cases the controller (its description and state maps
included) is returned unchanged, the original mapping retained. -/
theorem network_addNode_idempotent_reject (net : eqNet.Network) (node : Nat)
    (desc d : eqNet.ConnectionDescription)
    (h : net.descriptions.lookup node = some d) :
    (d = desc → eqNet.addNode net node desc = (true, net)) ∧
    (d ≠ desc → eqNet.addNode net node desc = (false, net)) := by
  constructor
  · intro he
    simp [eqNet.addNode, h, he]
  · intro hne
    simp [eqNet.addNode, h, hne]

/-- A one-node controller for the addNode witness. -/
def net1 : eqNet.Network :=
  { descriptions := [(1, ⟨eqNet.NetworkProtocol.tcpip, 10, 20⟩)],
    nodeStates := [(1, eqNet.NodeState.stopped)],
    state := eqNet.NetState.stopped }

/-- C3 witness: re-registering node 1 with its identical description is an
accepted no-op; re-registering it with a conflicting description is
rejected, the controller unchanged in both cases. -/
theorem network_addNode_idempotent_reject_witness :
    eqNet.addNode net1 1 ⟨eqNet.NetworkProtocol.tcpip, 10, 20⟩ = (true, net1) ∧
    eqNet.addNode net1 1 ⟨eqNet.NetworkProtocol.pipe, 99, 20⟩ = (false, net1) :=
  ⟨(network_addNode_idempotent_reject net1 1
      ⟨eqNet.NetworkProtocol.tcpip, 10, 20⟩
      ⟨eqNet.NetworkProtocol.tcpip, 10, 20⟩ rfl).1 rfl,
   (network_addNode_idempotent_reject net1 1
      ⟨eqNet.NetworkProtocol.pipe, 99, 20⟩
      ⟨eqNet.NetworkProtocol.tcpip, 10, 20⟩ rfl).2 (by decide)⟩

/-- C4: handlePacket consults the fixed-size dispatch table, which is only
ever indexed at `Fin cmdAll` positions: a command at or beyond the bound is
reported as a protocol error and the packet dropped, a command in range
with no registered handler likewise, and a command in range with a
registered handler runs exactly that handler; in every case a result is
produced, so the controller keeps operating. -/
theorem network_handlePacket_safe (cmdAll : Nat)
    (table : Fin cmdAll → Option (eqNet.Network → eqNet.NetworkPacket → eqNet.Network))
    (net : eqNet.Network) (p : eqNet.NetworkPacket) :
    (cmdAll ≤ p.command →
      eqNet.handlePacket cmdAll table net p = eqNet.DispatchResult.protocolError) ∧
    ∀ h : p.command < cmdAll,
      (table ⟨p.command, h⟩ = none →
        eqNet.handlePacket cmdAll table net p = eqNet.DispatchResult.protocolError) ∧
      ∀ f, table ⟨p.command, h⟩ = some f →
        eqNet.handlePacket cmdAll table net p =
          eqNet.DispatchResult.handled (f net p) := by
  refine ⟨?_, ?_⟩
  · intro hge
    rw [eqNet.handlePacket, dif_neg (by omega)]
  · intro h
    refine ⟨?_, ?_⟩
    · intro hnone
      rw [eqNet.handlePacket, dif_pos h, hnone]
    · intro f hf
      rw [eqNet.handlePacket, dif_pos h, hf]

/-- A dispatch table over two commands with a handler bound only to
command 0, for the handlePacket witness. -/
def table2 : Fin 2 → Option (eqNet.Network → eqNet.NetworkPacket → eqNet.Network) :=
  fun i => if i.1 = 0 then some (fun net _ => net) else none

/-- An empty controller for the handlePacket witness. -/
def net0 : eqNet.Network := ⟨[], [], eqNet.NetState.stopped⟩

/-- C4 witness: with the concrete two-entry table, command 5 (out of range)
and command 1 (no handler) yield a reported protocol error, while command 0
runs its registered handler. -/
theorem network_handlePacket_safe_witness :
    eqNet.handlePacket 2 table2 net0 ⟨5⟩ = eqNet.DispatchResult.protocolError ∧
    eqNet.handlePacket 2 table2 net0 ⟨1⟩ = eqNet.DispatchResult.protocolError ∧
    eqNet.handlePacket 2 table2 net0 ⟨0⟩ = eqNet.DispatchResult.handled net0 :=
  ⟨(network_handlePacket_safe 2 table2 net0 ⟨5⟩).1 (by decide),
   ((network_handlePacket_safe 2 table2 net0 ⟨1⟩).2 (by decide)).1 rfl,
   ((network_handlePacket_safe 2 table2 net0 ⟨0⟩).2 (by decide)).2
     (fun net _ => net) rfl⟩
